import Mathlib

/-!
Verification development for the Multi-Source Indicator Reconciliation Engine
of the WWW repository (scripts `fet_UN_data.py`, `fetch_sipri.py`,
`fetch_owid.py`, `fetch_unesco.py`, `fetch_imf_data.py`, `fetch_worldbank.py`).

The Python scripts are embedded shallowly:

* JSON scalar values stored in the per-country records become `JVal`
  (a float or a year string).
* A cell of a raw tabular payload becomes `Cell := Option String`; `none` is
  an empty (`None`) cell, and a numeric cell is represented by its decimal
  text (which is what both `str(cell)` and `float(cell)` see on the
  inputs treated here).
* Python dict-of-dict stores become slot maps `Slots := String → String →
  Option JVal`; `none` plays the role of "key missing or value null", which
  is exactly the granularity at which the merge code inspects the store
  (`un_data[iso3].get(field) is None`).
* The builtin `float(...)` is modelled by `pyFloat?`, a parser for plain
  decimal literals (optional sign, digits, optional fraction).  Exponent
  forms and the special values inf/nan do not occur in the payloads the
  claims quantify over and are treated as parse failures.
-/

/-- JSON-style scalar value kept in a per-country record: a numeric
observation or a year string. -/
inductive JVal where
  | num (q : ℚ)
  | str (s : String)
deriving DecidableEq

/-- A raw cell of a tabular payload: `none` is an empty/`None` cell,
`some s` a cell whose textual content is `s`. -/
abbrev Cell := Option String

/-- A store (or a single-source field map) seen as a map from
(entity code, field name) to the stored value, `none` meaning
"absent or null" — the granularity at which the Python merge inspects it. -/
def Slots := String → String → Option JVal

/-- The empty store. -/
def emptySlots : Slots := fun _ _ => none

/-- Dict assignment `store[e][f] = v`. -/
def setSlot (s : Slots) (e f : String) (v : JVal) : Slots :=
  fun e2 f2 => if e2 = e ∧ f2 = f then some v else s e2 f2

theorem setSlot_same (s : Slots) (e f : String) (v : JVal) :
    setSlot s e f v e f = some v := by
  simp [setSlot]

theorem setSlot_other (s : Slots) (e f e2 f2 : String) (v : JVal)
    (h : ¬(e2 = e ∧ f2 = f)) : setSlot s e f v e2 f2 = s e2 f2 := by
  simp [setSlot, h]

/-- A `SourceFieldMap` as the merge loop of `fet_UN_data.main` iterates it:
`for iso3, fields in new_data.items(): for field, value in fields.items()`. -/
abbrev SourceFieldMap := List (String × List (String × JVal))

/-- Inner merge loop of `fet_UN_data.main` (lines 245-248): for each
`(field, value)` of one entity, write into the store only when
`un_data[iso3].get(field) is None`, counting every newly written field. -/
def mergeFields (e : String) : Slots → Nat → List (String × JVal) → Slots × Nat
  | store, cnt, [] => (store, cnt)
  | store, cnt, (f, v) :: rest =>
    if store e f = none then mergeFields e (setSlot store e f v) (cnt + 1) rest
    else mergeFields e store cnt rest

/-- Outer merge loop of `fet_UN_data.main` (lines 242-248) over the entities
of the freshly extracted source map. -/
def mergeEntities : Slots → Nat → SourceFieldMap → Slots × Nat
  | store, cnt, [] => (store, cnt)
  | store, cnt, (e, fs) :: rest =>
    let sc := mergeFields e store cnt fs
    mergeEntities sc.1 sc.2 rest

/-- Fill-only merge of one source map into the store, returning the new store
together with `count_added` (`total_merged` in the script). -/
def mergeFill (store : Slots) (src : SourceFieldMap) : Slots × Nat :=
  mergeEntities store 0 src

theorem mergeFields_preserves_some (e : String) (fs : List (String × JVal)) :
    ∀ (store : Slots) (cnt : Nat) (e2 f2 : String) (v : JVal),
      store e2 f2 = some v → (mergeFields e store cnt fs).1 e2 f2 = some v := by
  induction fs with
  | nil => intro store cnt e2 f2 v h; simpa [mergeFields] using h
  | cons fv rest ih =>
    intro store cnt e2 f2 v h
    by_cases hn : store e fv.1 = none
    · have hne : ¬(e2 = e ∧ f2 = fv.1) := by
        rintro ⟨he, hf⟩
        rw [he, hf] at h
        rw [hn] at h
        exact Option.noConfusion h
      have h2 : setSlot store e fv.1 fv.2 e2 f2 = some v := by
        rw [setSlot_other store e fv.1 e2 f2 fv.2 hne]; exact h
      simpa [mergeFields, hn] using ih (setSlot store e fv.1 fv.2) (cnt + 1) e2 f2 v h2

    · simpa [mergeFields, hn] using ih store cnt e2 f2 v h

theorem mergeEntities_preserves_some (src : SourceFieldMap) :
    ∀ (store : Slots) (cnt : Nat) (e2 f2 : String) (v : JVal),
      store e2 f2 = some v → (mergeEntities store cnt src).1 e2 f2 = some v := by
  induction src with
  | nil => intro store cnt e2 f2 v h; simpa [mergeEntities] using h
  | cons efs rest ih =>
    intro store cnt e2 f2 v h
    have h1 := mergeFields_preserves_some efs.1 efs.2 store cnt e2 f2 v h
    simpa [mergeEntities] using
      ih (mergeFields efs.1 store cnt efs.2).1 (mergeFields efs.1 store cnt efs.2).2 e2 f2 v h1

theorem mergeFields_covers (e : String) (fs : List (String × JVal)) :
    ∀ (store : Slots) (cnt : Nat) (f : String) (v : JVal),
      (f, v) ∈ fs → ((mergeFields e store cnt fs).1 e f).isSome := by
  induction fs with
  | nil => intro store cnt f v h; cases h
  | cons fv rest ih =>
    intro store cnt f v h
    rcases List.mem_cons.mp h with h1 | h2
    · by_cases hn : store e fv.1 = none
      · have hset : setSlot store e fv.1 fv.2 e fv.1 = some fv.2 := setSlot_same _ _ _ _
        have hkeep := mergeFields_preserves_some e rest (setSlot store e fv.1 fv.2) (cnt + 1)
          e fv.1 fv.2 hset
        have hf : f = fv.1 := congrArg Prod.fst h1
        rw [hf]
        simp [mergeFields, hn, hkeep]
      · rcases Option.ne_none_iff_exists.mp hn with ⟨w, hw⟩
        have hkeep := mergeFields_preserves_some e rest store cnt e fv.1 w hw.symm
        have hf : f = fv.1 := congrArg Prod.fst h1
        rw [hf]
        simp [mergeFields, hn, hkeep]
    · by_cases hn : store e fv.1 = none
      · simpa [mergeFields, hn] using ih (setSlot store e fv.1 fv.2) (cnt + 1) f v h2
      · simpa [mergeFields, hn] using ih store cnt f v h2

theorem mergeEntities_covers (src : SourceFieldMap) :
    ∀ (store : Slots) (cnt : Nat) (e : String) (fs : List (String × JVal))
      (f : String) (v : JVal), (e, fs) ∈ src → (f, v) ∈ fs →
      ((mergeEntities store cnt src).1 e f).isSome := by
  induction src with
  | nil => intro store cnt e fs f v h _; cases h
  | cons efs rest ih =>
    intro store cnt e fs f v h hf
    rcases List.mem_cons.mp h with h1 | h2
    · have he : efs.1 = e := (congrArg Prod.fst h1).symm
      have hfs : efs.2 = fs := (congrArg Prod.snd h1).symm
      have hcov : ((mergeFields efs.1 store cnt efs.2).1 e f).isSome := by
        rw [he, hfs]
        exact mergeFields_covers e fs store cnt f v hf
      rcases Option.isSome_iff_exists.mp hcov with ⟨w, hw⟩
      have := mergeEntities_preserves_some rest (mergeFields efs.1 store cnt efs.2).1
        (mergeFields efs.1 store cnt efs.2).2 e f w hw
      simp only [mergeEntities]
      exact Option.isSome_iff_exists.mpr ⟨w, this⟩
    · simp only [mergeEntities]
      exact ih _ _ e fs f v h2 hf

theorem mergeFields_noop (e : String) (fs : List (String × JVal)) :
    ∀ (store : Slots) (cnt : Nat),
      (∀ (f : String) (v : JVal), (f, v) ∈ fs → (store e f).isSome) →
      mergeFields e store cnt fs = (store, cnt) := by
  induction fs with
  | nil => intro store cnt _; rfl
  | cons fv rest ih =>
    intro store cnt h
    have hhead : (store e fv.1).isSome := h fv.1 fv.2 (List.mem_cons_self _ _)
    have hn : ¬ store e fv.1 = none := by
      intro hc; rw [hc] at hhead; exact Bool.noConfusion hhead
    have := ih store cnt (fun f v hm => h f v (List.mem_cons_of_mem _ hm))
    simpa [mergeFields, hn] using this

theorem mergeEntities_noop (src : SourceFieldMap) :
    ∀ (store : Slots) (cnt : Nat),
      (∀ (e : String) (fs : List (String × JVal)) (f : String) (v : JVal),
        (e, fs) ∈ src → (f, v) ∈ fs → (store e f).isSome) →
      mergeEntities store cnt src = (store, cnt) := by
  induction src with
  | nil => intro store cnt _; rfl
  | cons efs rest ih =>
    intro store cnt h
    have hhead : mergeFields efs.1 store cnt efs.2 = (store, cnt) := by
      apply mergeFields_noop
      intro f v hm
      exact h efs.1 efs.2 f v (List.mem_cons_self _ _) hm
    have htail := ih store cnt
      (fun e fs f v hm hf => h e fs f v (List.mem_cons_of_mem _ hm) hf)
    simp only [mergeEntities, hhead]
    exact htail

/-- C1: under the fill-only merge policy, once the store holds a non-absent
value for an entity/field pair, no fill-only merge (from whatever source map)
changes that value — in particular an explicit zero already stored is
preserved — and a slot changed by a merge must have been absent (`None`)
beforehand. -/
theorem fill_only_merge_preserves (store : Slots) (src : SourceFieldMap) :
    (∀ (e f : String) (v : JVal), store e f = some v →
      (mergeFill store src).1 e f = some v) ∧
    (∀ (e f : String), (mergeFill store src).1 e f ≠ store e f →
      store e f = none) := by
  constructor
  · intro e f v h
    exact mergeEntities_preserves_some src store 0 e f v h
  · intro e f h
    cases hc : store e f with
    | none => rfl
    | some v =>
      exact absurd (mergeEntities_preserves_some src store 0 e f v hc) (by rw [hc] at h; exact h)

/-- Witness for C1: a store holding the explicit zero `gdpGrowth = 0` for
`FRA` still holds it after a fill-only merge trying to write `5` there. -/
theorem fill_only_merge_preserves_witness :
    (mergeFill (setSlot emptySlots "FRA" "gdpGrowth" (JVal.num 0))
      [("FRA", [("gdpGrowth", JVal.num 5)])]).1 "FRA" "gdpGrowth" =
      some (JVal.num 0) :=
  (fill_only_merge_preserves (setSlot emptySlots "FRA" "gdpGrowth" (JVal.num 0))
    [("FRA", [("gdpGrowth", JVal.num 5)])]).1 "FRA" "gdpGrowth" (JVal.num 0)
    (by decide)

/-- C2: the fill-only merge is idempotent — replaying the same source map over
the store produced by the first merge leaves the store unchanged and reports
`count_added = 0`. -/
theorem fill_only_merge_idempotent (store : Slots) (src : SourceFieldMap) :
    mergeFill (mergeFill store src).1 src = ((mergeFill store src).1, 0) := by
  apply mergeEntities_noop
  intro e fs f v hm hf
  exact mergeEntities_covers src store 0 e fs f v hm hf

/-- Substring test on character lists, modelling the Python operator
`needle in hay`. -/
def listContainsSub (hay needle : List Char) : Bool :=
  hay.tails.any (fun t => needle.isPrefixOf t)

/-- Substring test on strings (Python `needle in hay`). -/
def strContains (hay needle : String) : Bool :=
  listContainsSub hay.data needle.data

/-- ASCII whitespace recognized by Python `str.strip()`. -/
def isPySpace (c : Char) : Bool :=
  c == ' ' || c == '\t' || c == '\n' || c == '\r' || c == '\x0b' || c == '\x0c'

/-- Python `str.strip()` on the texts this development handles. -/
def pyStrip (s : String) : String :=
  ⟨((s.data.dropWhile isPySpace).reverse.dropWhile isPySpace).reverse⟩

/-- Python `str.lower()` on ASCII text. -/
def lowerStr (s : String) : String :=
  ⟨s.data.map Char.toLower⟩

/-- Python `str.upper()` on ASCII text. -/
def upperStr (s : String) : String :=
  ⟨s.data.map Char.toUpper⟩

/-- Lexicographic comparison of character lists by code point, the order
Python uses for `str < str`. -/
def charsLt : List Char → List Char → Bool
  | [], [] => false
  | [], _ :: _ => true
  | _ :: _, [] => false
  | a :: as, b :: bs =>
    if a.toNat < b.toNat then true
    else if b.toNat < a.toNat then false
    else charsLt as bs

/-- Python string comparison `a < b`. -/
def pyStrLt (a b : String) : Bool :=
  charsLt a.data b.data

/-- Numeric value of a run of decimal digits (most significant first). -/
def digitsVal (cs : List Char) : Nat :=
  cs.foldl (fun a c => a * 10 + (c.toNat - 48)) 0

/-- Unsigned part of the decimal-literal grammar accepted by the model of
Python `float`: `digits`, `digits.`, `digits.digits` or `.digits`, returned
as the pair (decimal mantissa, power-of-ten denominator). -/
def pyFloatBody (body : List Char) : Option (Nat × Nat) :=
  let ip := body.takeWhile (fun c => c != '.')
  let rest := body.dropWhile (fun c => c != '.')
  match rest with
  | [] =>
    if !ip.isEmpty && ip.all Char.isDigit then some (digitsVal ip, 1) else none
  | _ :: fp =>
    if (!ip.isEmpty || !fp.isEmpty) && ip.all Char.isDigit && fp.all Char.isDigit
    then some (digitsVal (ip ++ fp), 10 ^ fp.length)
    else none

/-- Model of the Python builtin `float(s)` on plain decimal literals: optional
surrounding whitespace and sign, then digits with an optional fractional part.
Exponent notation and the special tokens inf/nan are not produced by the
payload cells this development quantifies over; they are treated as parse
failures, as is any other non-numeric string. -/
def pyFloat? (s : String) : Option ℚ :=
  match (pyStrip s).data with
  | '-' :: body => (pyFloatBody body).map (fun p => mkRat (-(p.1 : Int)) p.2)
  | '+' :: body => (pyFloatBody body).map (fun p => mkRat (p.1 : Int) p.2)
  | body => (pyFloatBody body).map (fun p => mkRat (p.1 : Int) p.2)

/-- Rational multiplication written through `mkRat` (the form the kernel can
evaluate); `pyMul_eq_mul` below shows it is multiplication. -/
def pyMul (a b : ℚ) : ℚ :=
  mkRat (a.num * b.num) (a.den * b.den)

/-- Truncation of `int(q)` applied to a Python float: toward zero. -/
def pyTrunc (q : ℚ) : Int :=
  q.num.tdiv (q.den : Int)

/-- Row text built by `find_header_row` of `fet_UN_data.py` (line 105):
`" ".join(str(c) for c in row if c)` — the truthy cells joined by blanks. -/
def unRowString (row : List Cell) : String :=
  String.intercalate " " ((row.filterMap id).filter (fun s => s != ""))

/-- Header test of `find_header_row` (line 106):
`"ISO3" in row_str or "iso3" in row_str.lower()`. -/
def unHeaderCond (row : List Cell) : Bool :=
  strContains (unRowString row) "ISO3" || strContains (lowerStr (unRowString row)) "iso3"

/-- Index-carrying linear scan, the shape of Python
`for i, row in enumerate(rows): if p(row): return i`. -/
def enumFindIdx {α : Type} (p : α → Bool) : Nat → List α → Option Nat
  | _, [] => none
  | i, a :: as => if p a then some i else enumFindIdx p (i + 1) as

/-- Header-row scan of `fet_UN_data.py` (lines 102-108): enumerate the first
25 rows and return the index of the first row containing the `ISO3` sentinel,
`none` when no such row exists in that prefix. -/
def find_header_row (rows : List (List Cell)) : Option Nat :=
  enumFindIdx unHeaderCond 0 (rows.take 25)

theorem enumFindIdx_eq_findIdx? {α : Type} (p : α → Bool) (l : List α) :
    ∀ n : Nat, enumFindIdx p n l = l.findIdx? p n := by
  induction l with
  | nil => intro n; rfl
  | cons a as ih =>
    intro n
    by_cases hp : p a
    · simp [enumFindIdx, List.findIdx?, hp]
    · simp only [enumFindIdx, List.findIdx?, hp, if_false, Bool.false_eq_true]
      exact ih (n + 1)

/-- The header map produced by `map_columns` of `fet_UN_data.py`: the claimed
entity-code column, the claimed year column, and the ordered field → column
assignments (`field_cols` keeps dict insertion order). -/
structure HeaderMap where
  iso3Col : Option Nat
  yearCol : Option Nat
  fieldCols : List (String × Nat)
deriving DecidableEq

/-- First-match association-list lookup (Python dict access / `in` test for
`field_cols`). -/
def lookupA {β : Type} : List (String × β) → String → Option β
  | [], _ => none
  | (k, b) :: rest, key => if k = key then some b else lookupA rest key

/-- One `(keyword, field_name)` test of the inner loop of `map_columns`
(lines 122-134) against the stripped text of the current cell: a matching
keyword claims the column for its slot only when that slot is still
unclaimed. -/
def applySpec (i : Nat) (cs : String) (st : HeaderMap) (kf : String × String) :
    HeaderMap :=
  if !strContains (lowerStr cs) (lowerStr kf.1) then st
  else if kf.2 = "_ISO3_" then
    if st.iso3Col = none then { st with iso3Col := some i } else st
  else if kf.2 = "_YEAR_" then
    if st.yearCol = none then { st with yearCol := some i } else st
  else
    if lookupA st.fieldCols kf.2 = none then
      { st with fieldCols := st.fieldCols ++ [(kf.2, i)] }
    else st

/-- One header-cell step of `map_columns` (lines 117-134): a `None` cell is
skipped, otherwise every spec pair is tested in order against the stripped
cell text. -/
def applyCell (specs : List (String × String)) (i : Nat) (c : Cell)
    (st : HeaderMap) : HeaderMap :=
  match c with
  | none => st
  | some s => specs.foldl (applySpec i (pyStrip s)) st

/-- Left-to-right traversal of the header cells. -/
def mapColsAux (specs : List (String × String)) :
    Nat → List Cell → HeaderMap → HeaderMap
  | _, [], st => st
  | i, c :: cs, st => mapColsAux specs (i + 1) cs (applyCell specs i c st)

/-- The `map_columns` routine of `fet_UN_data.py` (lines 111-136). -/
def map_columns (header : List Cell) (specs : List (String × String)) :
    HeaderMap :=
  mapColsAux specs 0 header { iso3Col := none, yearCol := none, fieldCols := [] }

/-- Identifier acceptance of `read_file` in `fet_UN_data.py` (lines 181-184):
a cell passes when it is truthy and its stripped text has exactly 3
characters, and is then uppercased and taken as the canonical code with no
table lookup of any kind. -/
def unAcceptIso3 (c : Cell) : Option String :=
  match c with
  | none => none
  | some s =>
    if s = "" then none
    else if (pyStrip s).length = 3 then some (upperStr (pyStrip s))
    else none

/-- Entity code extracted from a data row by `read_file` (lines 179-184),
including the leading `iso3_col >= len(row)` guard. -/
def rowIso3 (ic : Nat) (row : List Cell) : Option String :=
  if row.length ≤ ic then none
  else unAcceptIso3 (row.getD ic none)

/-- Year handling of `read_file` (lines 186-195): defaults `(0, "2024")`,
replaced by `int(float(str(yr_raw)))` and its decimal text when the year cell
exists, is not `None` and parses. -/
def rowYearInfo (yc : Option Nat) (row : List Cell) : Int × String :=
  match yc with
  | none => (0, "2024")
  | some y =>
    if y < row.length then
      match row.getD y none with
      | none => (0, "2024")
      | some ys =>
        match pyFloat? ys with
        | none => (0, "2024")
        | some q => (pyTrunc q, toString (pyTrunc q))
    else (0, "2024")

/-- Paired write of an observation and its year annotation, the two adjacent
dict assignments `result[iso3][field] = float(cell)` and
`result[iso3][field + "_year"] = year` (`fet_UN_data.py` lines 209-210,
`fetch_sipri.py` lines 244-245, `fetch_worldbank.py` lines 143-144). -/
def pairWrite (sl : Slots) (e f : String) (v : ℚ) (year : String) : Slots :=
  setSlot (setSlot sl e f (JVal.num v)) e (f ++ "_year") (JVal.str year)

/-- Field loop of `read_file` (lines 206-212): every configured column whose
cell exists, is not `None` and parses as a float is written together with the
chosen year string; parse failures are silently skipped. -/
def writeFields (iso3 year : String) (row : List Cell) (slots : Slots)
    (fcs : List (String × Nat)) : Slots :=
  fcs.foldl
    (fun sl fc =>
      if fc.2 < row.length then
        match row.getD fc.2 none with
        | none => sl
        | some cs =>
          match pyFloat? cs with
          | none => sl
          | some q => pairWrite sl iso3 fc.1 q year
      else sl)
    slots

/-- Running extraction state of `read_file`: the `best_year` dict and the
`result` source map. -/
structure RFState where
  best : String → Option Int
  slots : Slots

/-- The empty extraction state. -/
def rfEmpty : RFState := { best := fun _ => none, slots := emptySlots }

/-- Processing of one accepted row (lines 201-212): record its year as the
entity's `best_year` and overwrite the fields the row can parse. -/
def procRow (st : RFState) (iso3 : String) (yi : Int × String)
    (row : List Cell) (fcs : List (String × Nat)) : RFState :=
  { best := fun e2 => if e2 = iso3 then some yi.1 else st.best e2,
    slots := writeFields iso3 yi.2 row st.slots fcs }

/-- One iteration of the data-row loop of `read_file` (lines 178-212): skip
rows without an acceptable entity cell, skip years beyond 2025, skip rows
older than the entity's current best year, and process the rest. -/
def rowStep (yc : Option Nat) (ic : Nat) (fcs : List (String × Nat))
    (st : RFState) (row : List Cell) : RFState :=
  match rowIso3 ic row with
  | none => st
  | some iso3 =>
    let yi := rowYearInfo yc row
    if 2025 < yi.1 then st
    else
      match st.best iso3 with
      | some b => if yi.1 < b then st else procRow st iso3 yi row fcs
      | none => procRow st iso3 yi row fcs

/-- The whole data-row loop of `read_file`, run from the empty state. -/
def runRows (yc : Option Nat) (ic : Nat) (fcs : List (String × Nat))
    (rows : List (List Cell)) : RFState :=
  rows.foldl (rowStep yc ic fcs) rfEmpty

/-- The `read_file` extraction of `fet_UN_data.py` (lines 139-215), taking
the decoded sheet rows (the openpyxl plumbing is the external collaborator):
locate the header, map its columns, then fold the data rows; a missing header
row or a missing entity-code column contributes nothing. -/
def read_file (rows : List (List Cell)) (cmap : List (String × String)) :
    RFState :=
  match find_header_row rows with
  | none => rfEmpty
  | some hi =>
    let hm := map_columns (rows.getD hi []) cmap
    match hm.iso3Col with
    | none => rfEmpty
    | some ic => runRows hm.yearCol ic hm.fieldCols (rows.drop (hi + 1))

/-- Declarative reading of the row filter of `read_file`: the parsed year of
a row that carries entity `e` and survives the 2025 cutoff, `none` for rows
that are skipped outright. -/
def rowQualYear (yc : Option Nat) (ic : Nat) (e : String)
    (row : List Cell) : Option Int :=
  match rowIso3 ic row with
  | none => none
  | some i =>
    if i = e ∧ (rowYearInfo yc row).1 ≤ 2025 then some (rowYearInfo yc row).1
    else none

/-- Running-maximum step over an optional current best. -/
def omaxStep (acc : Option Int) (y : Int) : Option Int :=
  match acc with
  | none => some y
  | some b => some (max b y)

/-- Maximum of a list of years, `none` on the empty list. -/
def listMaxO (l : List Int) : Option Int :=
  l.foldl omaxStep none

theorem rowStep_best (yc : Option Nat) (ic : Nat) (fcs : List (String × Nat))
    (st : RFState) (row : List Cell) (e : String) :
    (rowStep yc ic fcs st row).best e =
      match rowQualYear yc ic e row with
      | none => st.best e
      | some y => omaxStep (st.best e) y := by
  unfold rowStep rowQualYear
  cases hio : rowIso3 ic row with
  | none => rfl
  | some i =>
    by_cases hcut : 2025 < (rowYearInfo yc row).1
    · have hns : ¬(i = e ∧ (rowYearInfo yc row).1 ≤ 2025) := by
        rintro ⟨_, hle⟩; omega
      simp [hcut, hns]
    · by_cases hie : i = e
      · subst hie
        have hle : (rowYearInfo yc row).1 ≤ 2025 := by omega
        have hsel : (i = i ∧ (rowYearInfo yc row).1 ≤ 2025) := ⟨rfl, hle⟩
        simp only [hcut, if_false, if_pos hsel]
        cases hb : st.best i with
        | none => simp [procRow, omaxStep, hb, hle]
        | some b =>
          by_cases hlt : (rowYearInfo yc row).1 < b
          · have hmax : max b (rowYearInfo yc row).1 = b := by omega
            simp [hb, hlt, omaxStep, hmax, hle]
          · have hmax : max b (rowYearInfo yc row).1 = (rowYearInfo yc row).1 := by omega
            simp [hb, hlt, omaxStep, hmax, procRow, hle]
      · have hns : ¬(i = e ∧ (rowYearInfo yc row).1 ≤ 2025) := by
          rintro ⟨hc, _⟩; exact hie hc
        have hei : ¬e = i := fun h => hie h.symm
        simp only [hcut, if_false, if_neg hns]
        cases hb : st.best i with
        | none => simp [procRow, hie, hei]
        | some b =>
          by_cases hlt : (rowYearInfo yc row).1 < b
          · simp [hb, hlt]
          · simp [hb, hlt, procRow, hie, hei]

theorem runRows_best_aux (yc : Option Nat) (ic : Nat)
    (fcs : List (String × Nat)) (e : String) (rows : List (List Cell)) :
    ∀ st : RFState, (rows.foldl (rowStep yc ic fcs) st).best e =
      (rows.filterMap (rowQualYear yc ic e)).foldl omaxStep (st.best e) := by
  induction rows with
  | nil => intro st; rfl
  | cons r rs ih =>
    intro st
    have hstep := rowStep_best yc ic fcs st r e
    cases hq : rowQualYear yc ic e r with
    | none =>
      rw [hq] at hstep
      simp only [List.foldl_cons, List.filterMap_cons, hq]
      rw [ih (rowStep yc ic fcs st r), hstep]
    | some y =>
      rw [hq] at hstep
      simp only [List.foldl_cons, List.filterMap_cons, hq]
      rw [ih (rowStep yc ic fcs st r), hstep]

/-- Manual override table `NAME_TO_ISO3` of `fetch_sipri.py` (lines 49-98),
transcribed entry for entry. -/
def NAME_TO_ISO3 : List (String × String) := [
  ("United States", "USA"),
  ("United Kingdom", "GBR"),
  ("Russia", "RUS"),
  ("South Korea", "KOR"),
  ("North Korea", "PRK"),
  ("Iran", "IRN"),
  ("Syria", "SYR"),
  ("Venezuela", "VEN"),
  ("Bolivia", "BOL"),
  ("Tanzania", "TZA"),
  ("Congo, Dem. Rep.", "COD"),
  ("Congo, Rep.", "COG"),
  ("Congo, DR", "COD"),
  ("Congo, Republic", "COG"),
  ("Côte d\x27Ivoire", "CIV"),
  ("Gambia, The", "GMB"),
  ("Korea, South", "KOR"),
  ("Korea, North", "PRK"),
  ("Lao PDR", "LAO"),
  ("Laos", "LAO"),
  ("Libya", "LBY"),
  ("Moldova", "MDA"),
  ("Slovakia", "SVK"),
  ("Czechia", "CZE"),
  ("Czech Republic", "CZE"),
  ("Kyrgyzstan", "KGZ"),
  ("Kyrgyz Republic", "KGZ"),
  ("Timor-Leste", "TLS"),
  ("Eswatini", "SWZ"),
  ("Swaziland", "SWZ"),
  ("Macedonia", "MKD"),
  ("North Macedonia", "MKD"),
  ("Micronesia", "FSM"),
  ("São Tomé and Príncipe", "STP"),
  ("Brunei", "BRN"),
  ("Cape Verde", "CPV"),
  ("Cabo Verde", "CPV"),
  ("Palestine", "PSE"),
  ("West Bank and Gaza", "PSE"),
  ("Taiwan", "TWN"),
  ("Kosovo", "XKX"),
  ("Vietnam", "VNM"),
  ("Viet Nam", "VNM"),
  ("Myanmar", "MMR"),
  ("Burma", "MMR"),
  ("Egypt", "EGY"),
  ("Turkey", "TUR"),
  ("Türkiye", "TUR")]

/-- The reference country database consulted by `country_to_iso3`
(the external `pycountry` library): an exact-name lookup and a best-effort
fuzzy search, each returning the top match's alpha-3 code when it exists. -/
structure RefDB where
  exact : String → Option String
  fuzzy : String → Option String

/-- The `country_to_iso3` resolver of `fetch_sipri.py` (lines 138-160):
the manual override table by exact string match first, then the reference
database by exact name, then by fuzzy search; `none` marks an unresolved
identifier (any exception of the reference lookup is also absorbed into a
fuzzy `none`). -/
def country_to_iso3 (db : RefDB) (name0 : String) : Option String :=
  let name := pyStrip name0
  match lookupA NAME_TO_ISO3 name with
  | some c => some c
  | none =>
    match db.exact name with
    | some c => some c
    | none => db.fuzzy name

/-- Placeholder tokens skipped by the SIPRI value scan
(`fetch_sipri.py` line 231). -/
def sipriPlaceholders : List String := ["xxx", "...", "", "nan", "NaN"]

/-- Python `raw.replace("," , "")` — drop every comma. -/
def stripCommas (s : String) : String :=
  ⟨s.data.filter (fun c => c != ',')⟩

/-- The Value Normalizer applied to one raw cell text
(`fetch_sipri.py` lines 230-237): strip, drop placeholder tokens, then
attempt the numeric parse with thousands separators removed; every failure
path yields `none`. -/
def normalizeRaw (s : String) : Option ℚ :=
  let raw := pyStrip s
  if sipriPlaceholders.contains raw then none
  else pyFloat? (stripCommas raw)

/-- The Value Normalizer on a raw cell; a missing cell reaches the scan as
the pandas NaN whose `str` is `"nan"`, itself a placeholder. -/
def normalizeCell (c : Cell) : Option ℚ :=
  normalizeRaw (match c with | none => "nan" | some s => s)

/-- The descending year sort of `parse_sheet` (`fetch_sipri.py` line 207):
`sorted(year_cols, key=int, reverse=True)`.  Insertion sort is stable, like
Python's `sorted`, and two stable sorts under the same total preorder return
the same list. -/
def sortYearsDesc (obs : List (Nat × String)) : List (Nat × String) :=
  List.insertionSort (fun a b => b.1 ≤ a.1) obs

/-- The value scan of `parse_sheet` (`fetch_sipri.py` lines 229-238) over the
already sorted year columns: skip placeholders, return the first cell that
parses (scaled by `multiply_by`) together with the year token's decimal text,
keep scanning on a parse failure. -/
def selLoop (m : ℚ) : List (Nat × String) → Option (ℚ × String)
  | [] => none
  | (yc, raw0) :: rest =>
    let raw := pyStrip raw0
    if sipriPlaceholders.contains raw then selLoop m rest
    else
      match pyFloat? (stripCommas raw) with
      | some v => some (pyMul v m, toString yc)
      | none => selLoop m rest

/-- The Temporal Selector of `parse_sheet` for one row in the years-as-columns
shape: sort the year tokens descending, then scan for the most recent valid
value. -/
def select_latest (m : ℚ) (obs : List (Nat × String)) : Option (ℚ × String) :=
  selLoop m (sortYearsDesc obs)

/-- Declarative reading of the selector actually implemented (no cutoff):
the first year in descending order whose normalized value is a valid
number. -/
def selectSpecNoCutoff (obs : List (Nat × String)) : Option (ℚ × String) :=
  (sortYearsDesc obs).findSome?
    (fun p => (normalizeRaw p.2).map (fun v => (v, toString p.1)))

/-- The Temporal Selector exactly as the specification words it: the first
year in descending order whose normalized value is a valid number AND whose
year does not exceed `cutoff`. -/
def selectLatestClaim (obs : List (Nat × String)) (cutoff : Nat) :
    Option (ℚ × String) :=
  (sortYearsDesc obs).findSome?
    (fun p =>
      if p.1 ≤ cutoff then (normalizeRaw p.2).map (fun v => (v, toString p.1))
      else none)

/-- Header test of `parse_sheet` (`fetch_sipri.py` lines 182-184): some
stripped non-empty cell equals `"Country"`, or some such cell is a 4-digit
numeric token. -/
def sipriRowQualifies (row : List String) : Bool :=
  let vals := (row.map pyStrip).filter (fun v => v != "")
  vals.any (fun v => v == "Country") ||
    vals.any (fun v => v.length == 4 && v.data.all Char.isDigit)

/-- Header-row scan of `parse_sheet` (`fetch_sipri.py` lines 181-187): the
first qualifying row over the WHOLE sheet, with no bound on how far the scan
goes. -/
def sipriFindHeader (rows : List (List String)) : Option Nat :=
  enumFindIdx sipriRowQualifies 0 rows

/-- A 4-digit numeric token. -/
def digit4 (v : String) : Bool :=
  v.length == 4 && v.data.all Char.isDigit

/-- The Schema Locator header scan exactly as the specification words it:
at most the first 25 rows; a row qualifies when the sentinel keyword is a
case-insensitive substring of the concatenation of its non-empty cells, or
when a majority of its cells are 4-digit numeric tokens. -/
def locateHeaderClaim (sentinel : String) (rows : List (List String)) :
    Option Nat :=
  (rows.take 25).findIdx? (fun row =>
    strContains (lowerStr (String.intercalate " " (row.filter (fun c => c != ""))))
      (lowerStr sentinel) ||
    decide (row.length < 2 * (row.filter digit4).length))

/-- Python `str.isupper` on ASCII text: at least one letter and no lowercase
letter. -/
def pyIsUpper (s : String) : Bool :=
  s.data.any Char.isAlpha && s.data.all (fun c => !c.isLower)

/-- Junk country-cell tokens skipped by `parse_sheet`
(`fetch_sipri.py` line 215). -/
def sipriJunkNames : List String := ["country", "nan", "notes", "region", "world"]

/-- Accumulated output of `parse_sheet`: the per-country result map and the
diagnostic list of identifiers that could not be resolved. -/
structure SipriAcc where
  result : Slots
  skipped : List String

/-- The empty `parse_sheet` accumulator. -/
def sipriAccEmpty : SipriAcc := { result := emptySlots, skipped := [] }

/-- One data-row step of `parse_sheet` (`fetch_sipri.py` lines 213-245),
taking the row's stripped-to-be country cell and its year-column cells:
junk and region rows are skipped, an unresolvable name is appended to the
diagnostic `skipped` list and contributes nothing, and a resolved row with a
selectable value writes the observation and its year annotation together. -/
def sipriRow (db : RefDB) (fname : String) (m : ℚ) (acc : SipriAcc)
    (r : String × List (Nat × String)) : SipriAcc :=
  let name := pyStrip r.1
  if name = "" ∨ sipriJunkNames.contains (lowerStr name) then acc
  else if pyIsUpper name ∧ 3 < name.length then acc
  else
    match country_to_iso3 db name with
    | none => { acc with skipped := acc.skipped ++ [name] }
    | some iso3 =>
      match select_latest m r.2 with
      | none => acc
      | some vy => { acc with result := pairWrite acc.result iso3 fname vy.1 vy.2 }

/-- The data-row loop of `parse_sheet`, run from the empty accumulator. -/
def sipriRun (db : RefDB) (fname : String) (m : ℚ)
    (rows : List (String × List (Nat × String))) : SipriAcc :=
  rows.foldl (sipriRow db fname m) sipriAccEmpty

/-- One row step of `extract_latest` in `fetch_owid.py` (lines 163-176): the
row's code cell is stripped and uppercased and must have exactly 3 characters;
empty and placeholder value cells are skipped, as are value parse failures;
the row replaces the entity's stored entry only when the store has none or the
row's year string compares strictly greater. -/
def owidStep (acc : String → Option (ℚ × String))
    (r : String × String × String) : String → Option (ℚ × String) :=
  let iso3 := upperStr (pyStrip r.1)
  if iso3 = "" ∨ iso3.length ≠ 3 then acc
  else if r.2.1 = "" ∨ ["", "nan", "None"].contains (pyStrip r.2.1) then acc
  else
    match pyFloat? r.2.1 with
    | none => acc
    | some v =>
      let year := pyStrip r.2.2
      match acc iso3 with
      | none => fun e => if e = iso3 then some (v, year) else acc e
      | some prev =>
        if pyStrLt prev.2 year then fun e => if e = iso3 then some (v, year) else acc e
        else acc

/-- The `extract_latest` routine of `fetch_owid.py` (lines 161-177) over the
rows' (code cell, value cell, year cell) triples. -/
def extract_latest (rows : List (String × String × String)) :
    String → Option (ℚ × String) :=
  rows.foldl owidStep (fun _ => none)

/-- Model of the persistence step `with open(path, "w") as f:
json.dump(store, f, indent=2)` closing every run (`fet_UN_data.py` lines
262-264, `fetch_sipri.py` lines 291-293): mode `"w"` truncates the target
file before anything is written, then the serialized text (a character list
here) is written front to back; `k` is how many characters reach durable
storage before a failure interrupts the write, and any `k` at least the
length means the write completed.  The function returns the file contents
left behind. -/
def storeWriteResult (serialized : List Char) (k : Nat) : List Char :=
  serialized.take k

theorem pyMul_eq_mul (a b : ℚ) : pyMul a b = a * b :=
  (Rat.mul_eq_mkRat a b).symm

theorem pyMul_one (a : ℚ) : pyMul a 1 = a := by
  rw [pyMul_eq_mul, mul_one]

theorem selLoop_one_eq_findSome? (l : List (Nat × String)) :
    selLoop 1 l =
      l.findSome? (fun p => (normalizeRaw p.2).map (fun v => (v, toString p.1))) := by
  induction l with
  | nil => rfl
  | cons p rest ih =>
    rcases p with ⟨yc, raw0⟩
    simp only [List.findSome?_cons]
    by_cases hpl : sipriPlaceholders.contains (pyStrip raw0)
    · have hf : normalizeRaw raw0 = none := by
        simp only [normalizeRaw]; rw [if_pos hpl]
      have hc : selLoop 1 ((yc, raw0) :: rest) = selLoop 1 rest := by
        simp only [selLoop]; rw [if_pos hpl]
      rw [hc, hf]
      simpa using ih
    · have hf : normalizeRaw raw0 = pyFloat? (stripCommas (pyStrip raw0)) := by
        simp only [normalizeRaw]; rw [if_neg hpl]
      cases hp : pyFloat? (stripCommas (pyStrip raw0)) with
      | none =>
        have hc : selLoop 1 ((yc, raw0) :: rest) = selLoop 1 rest := by
          simp only [selLoop]; rw [if_neg hpl, hp]
        rw [hc, hf, hp]
        simpa using ih
      | some v =>
        have hc : selLoop 1 ((yc, raw0) :: rest) = some (pyMul v 1, toString yc) := by
          simp only [selLoop]; rw [if_neg hpl, hp]
        rw [hc, hf, hp, pyMul_one]
        rfl

/-- One `(keyword, field_name)` pair matches destination `fn` on a cell text
`cs` when it is a pair for `fn` whose keyword occurs case-insensitively in
`cs`. -/
def matchKF (fn cs : String) (kf : String × String) : Bool :=
  kf.2 == fn && strContains (lowerStr cs) (lowerStr kf.1)

/-- A header cell matches destination `fn` when it is not `None` and some
spec pair for `fn` matches its stripped text. -/
def cellMatchesField (specs : List (String × String)) (fn : String) :
    Cell → Bool
  | none => false
  | some s => specs.any (matchKF fn (pyStrip s))

/-- Combine an already-claimed column with a fresh candidate at index `i`. -/
def orIdx (o : Option Nat) (b : Bool) (i : Nat) : Option Nat :=
  match o with
  | some j => some j
  | none => if b then some i else none

theorem lookupA_append {β : Type} (l1 l2 : List (String × β)) (k : String) :
    lookupA (l1 ++ l2) k =
      match lookupA l1 k with
      | some b => some b
      | none => lookupA l2 k := by
  induction l1 with
  | nil => rfl
  | cons p rest ih =>
    obtain ⟨a, b⟩ := p
    by_cases hk : a = k
    · simp [lookupA, hk]
    · simp only [List.cons_append, lookupA, if_neg hk]
      exact ih

theorem orIdx_false (o : Option Nat) (i : Nat) : orIdx o false i = o := by
  cases o <;> rfl

theorem applySpec_nomatch (i : Nat) (cs : String) (st : HeaderMap)
    (kf : String × String)
    (hm : strContains (lowerStr cs) (lowerStr kf.1) = false) :
    applySpec i cs st kf = st := by
  unfold applySpec
  rw [if_pos (by simp [hm])]

theorem applySpec_iso3Case (i : Nat) (cs : String) (st : HeaderMap)
    (kf : String × String)
    (hm : strContains (lowerStr cs) (lowerStr kf.1) = true)
    (hiso : kf.2 = "_ISO3_") :
    applySpec i cs st kf =
      if st.iso3Col = none then { st with iso3Col := some i } else st := by
  unfold applySpec
  rw [if_neg (by simp [hm]), if_pos hiso]

theorem applySpec_yearCase (i : Nat) (cs : String) (st : HeaderMap)
    (kf : String × String)
    (hm : strContains (lowerStr cs) (lowerStr kf.1) = true)
    (hiso : kf.2 ≠ "_ISO3_") (hyr : kf.2 = "_YEAR_") :
    applySpec i cs st kf =
      if st.yearCol = none then { st with yearCol := some i } else st := by
  unfold applySpec
  rw [if_neg (by simp [hm]), if_neg hiso, if_pos hyr]

theorem applySpec_fieldCase (i : Nat) (cs : String) (st : HeaderMap)
    (kf : String × String)
    (hm : strContains (lowerStr cs) (lowerStr kf.1) = true)
    (hiso : kf.2 ≠ "_ISO3_") (hyr : kf.2 ≠ "_YEAR_") :
    applySpec i cs st kf =
      if lookupA st.fieldCols kf.2 = none then
        { st with fieldCols := st.fieldCols ++ [(kf.2, i)] }
      else st := by
  unfold applySpec
  rw [if_neg (by simp [hm]), if_neg hiso, if_neg hyr]

theorem foldSpecs_fieldCols (fn : String) (h1 : fn ≠ "_ISO3_")
    (h2 : fn ≠ "_YEAR_") (specs : List (String × String)) :
    ∀ (i : Nat) (cs : String) (st : HeaderMap),
      lookupA (specs.foldl (applySpec i cs) st).fieldCols fn =
        orIdx (lookupA st.fieldCols fn) (specs.any (matchKF fn cs)) i := by
  induction specs with
  | nil => intro i cs st; rw [List.foldl_nil, List.any_nil, orIdx_false]
  | cons kf rest ih =>
    intro i cs st
    rw [List.foldl_cons, ih i cs (applySpec i cs st kf), List.any_cons]
    by_cases hm : strContains (lowerStr cs) (lowerStr kf.1)
    · by_cases hiso : kf.2 = "_ISO3_"
      · have hfc : (applySpec i cs st kf).fieldCols = st.fieldCols := by
          rw [applySpec_iso3Case i cs st kf hm hiso]
          split <;> rfl
        have hne : (kf.2 == fn) = false := by
          rw [hiso]; exact beq_eq_false_iff_ne.mpr (fun hc => h1 hc.symm)
        rw [hfc]
        simp [matchKF, hne]
      · by_cases hyr : kf.2 = "_YEAR_"
        · have hfc : (applySpec i cs st kf).fieldCols = st.fieldCols := by
            rw [applySpec_yearCase i cs st kf hm hiso hyr]
            split <;> rfl
          have hne : (kf.2 == fn) = false := by
            rw [hyr]; exact beq_eq_false_iff_ne.mpr (fun hc => h2 hc.symm)
          rw [hfc]
          simp [matchKF, hne]
        · by_cases heq : kf.2 = fn
          · by_cases hl : lookupA st.fieldCols fn = none
            · have hfc : (applySpec i cs st kf).fieldCols =
                  st.fieldCols ++ [(fn, i)] := by
                rw [applySpec_fieldCase i cs st kf hm hiso hyr, heq, if_pos hl]
              rw [hfc, lookupA_append, hl]
              have hsome : lookupA [(fn, i)] fn = some i := by simp [lookupA]
              rw [hsome]
              have hmt : matchKF fn cs kf = true := by
                simp [matchKF, heq, hm]
              simp [orIdx, hmt]
            · rcases Option.ne_none_iff_exists.mp hl with ⟨j, hj⟩
              have hfc : (applySpec i cs st kf).fieldCols = st.fieldCols := by
                rw [applySpec_fieldCase i cs st kf hm hiso hyr, heq, if_neg hl]
              rw [hfc, ← hj]
              simp [orIdx]
          · have hfc : lookupA (applySpec i cs st kf).fieldCols fn =
                lookupA st.fieldCols fn := by
              rw [applySpec_fieldCase i cs st kf hm hiso hyr]
              by_cases hl2 : lookupA st.fieldCols kf.2 = none
              · rw [if_pos hl2]
                show lookupA (st.fieldCols ++ [(kf.2, i)]) fn = _
                rw [lookupA_append]
                have hnone : lookupA [(kf.2, i)] fn = none := by
                  simp [lookupA, heq]
                rw [hnone]
                cases lookupA st.fieldCols fn <;> rfl
              · rw [if_neg hl2]
            have hne : (kf.2 == fn) = false := beq_eq_false_iff_ne.mpr heq
            rw [hfc]
            simp [matchKF, hne]
    · have hmb : strContains (lowerStr cs) (lowerStr kf.1) = false := by
        simpa using hm
      have hmf : matchKF fn cs kf = false := by
        simp [matchKF, hmb]
      rw [applySpec_nomatch i cs st kf hmb, hmf]
      simp

theorem applyCell_fieldCols (fn : String) (h1 : fn ≠ "_ISO3_")
    (h2 : fn ≠ "_YEAR_") (specs : List (String × String)) (i : Nat) (c : Cell)
    (st : HeaderMap) :
    lookupA (applyCell specs i c st).fieldCols fn =
      orIdx (lookupA st.fieldCols fn) (cellMatchesField specs fn c) i := by
  cases c with
  | none => rw [show applyCell specs i none st = st from rfl]; exact (orIdx_false _ _).symm
  | some s => exact foldSpecs_fieldCols fn h1 h2 specs i (pyStrip s) st

theorem mapColsAux_fieldCols (fn : String) (h1 : fn ≠ "_ISO3_")
    (h2 : fn ≠ "_YEAR_") (specs : List (String × String))
    (cells : List Cell) :
    ∀ (i : Nat) (st : HeaderMap),
      lookupA (mapColsAux specs i cells st).fieldCols fn =
        match lookupA st.fieldCols fn with
        | some j => some j
        | none => enumFindIdx (cellMatchesField specs fn) i cells := by
  induction cells with
  | nil =>
    intro i st
    rw [show mapColsAux specs i [] st = st from rfl]
    cases lookupA st.fieldCols fn <;> rfl
  | cons c cs2 ih =>
    intro i st
    rw [show mapColsAux specs i (c :: cs2) st =
        mapColsAux specs (i + 1) cs2 (applyCell specs i c st) from rfl]
    rw [ih (i + 1) (applyCell specs i c st),
      applyCell_fieldCols fn h1 h2 specs i c st]
    cases hl : lookupA st.fieldCols fn with
    | some j => simp [orIdx]
    | none =>
      by_cases hc : cellMatchesField specs fn c
      · simp [orIdx, hc, enumFindIdx]
      · simp [orIdx, hc, enumFindIdx]

theorem map_columns_fieldCols (fn : String) (h1 : fn ≠ "_ISO3_")
    (h2 : fn ≠ "_YEAR_") (header : List Cell)
    (specs : List (String × String)) :
    lookupA (map_columns header specs).fieldCols fn =
      enumFindIdx (cellMatchesField specs fn) 0 header := by
  rw [map_columns, mapColsAux_fieldCols fn h1 h2 specs header 0]
  rfl

theorem foldSpecs_iso3Col (specs : List (String × String)) :
    ∀ (i : Nat) (cs : String) (st : HeaderMap),
      (specs.foldl (applySpec i cs) st).iso3Col =
        orIdx st.iso3Col (specs.any (matchKF "_ISO3_" cs)) i := by
  induction specs with
  | nil => intro i cs st; rw [List.foldl_nil, List.any_nil, orIdx_false]
  | cons kf rest ih =>
    intro i cs st
    rw [List.foldl_cons, ih i cs (applySpec i cs st kf), List.any_cons]
    by_cases hm : strContains (lowerStr cs) (lowerStr kf.1)
    · by_cases hiso : kf.2 = "_ISO3_"
      · have hmt : matchKF "_ISO3_" cs kf = true := by
          simp [matchKF, hiso, hm]
        rw [applySpec_iso3Case i cs st kf hm hiso, hmt]
        cases hio : st.iso3Col with
        | none => simp [orIdx, hio]
        | some j => simp [orIdx, hio]
      · have hne : (kf.2 == "_ISO3_") = false := beq_eq_false_iff_ne.mpr hiso
        have hmf : matchKF "_ISO3_" cs kf = false := by
          simp [matchKF, hne]
        rw [hmf]
        by_cases hyr : kf.2 = "_YEAR_"
        · have hic : (applySpec i cs st kf).iso3Col = st.iso3Col := by
            rw [applySpec_yearCase i cs st kf hm hiso hyr]
            split <;> rfl
          rw [hic]
          simp
        · have hic : (applySpec i cs st kf).iso3Col = st.iso3Col := by
            rw [applySpec_fieldCase i cs st kf hm hiso hyr]
            split <;> rfl
          rw [hic]
          simp
    · have hmb : strContains (lowerStr cs) (lowerStr kf.1) = false := by
        simpa using hm
      have hmf : matchKF "_ISO3_" cs kf = false := by
        simp [matchKF, hmb]
      rw [applySpec_nomatch i cs st kf hmb, hmf]
      simp

theorem applyCell_iso3Col (specs : List (String × String)) (i : Nat) (c : Cell)
    (st : HeaderMap) :
    (applyCell specs i c st).iso3Col =
      orIdx st.iso3Col (cellMatchesField specs "_ISO3_" c) i := by
  cases c with
  | none => exact (orIdx_false _ _).symm
  | some s => exact foldSpecs_iso3Col specs i (pyStrip s) st

theorem mapColsAux_iso3Col (specs : List (String × String))
    (cells : List Cell) :
    ∀ (i : Nat) (st : HeaderMap),
      (mapColsAux specs i cells st).iso3Col =
        match st.iso3Col with
        | some j => some j
        | none => enumFindIdx (cellMatchesField specs "_ISO3_") i cells := by
  induction cells with
  | nil =>
    intro i st
    rw [show mapColsAux specs i [] st = st from rfl]
    cases st.iso3Col <;> rfl
  | cons c cs2 ih =>
    intro i st
    rw [show mapColsAux specs i (c :: cs2) st =
        mapColsAux specs (i + 1) cs2 (applyCell specs i c st) from rfl]
    rw [ih (i + 1) (applyCell specs i c st), applyCell_iso3Col specs i c st]
    cases hl : st.iso3Col with
    | some j => simp [orIdx]
    | none =>
      by_cases hc : cellMatchesField specs "_ISO3_" c
      · simp [orIdx, hc, enumFindIdx]
      · simp [orIdx, hc, enumFindIdx]

theorem map_columns_iso3Col (header : List Cell)
    (specs : List (String × String)) :
    (map_columns header specs).iso3Col =
      enumFindIdx (cellMatchesField specs "_ISO3_") 0 header := by
  rw [map_columns, mapColsAux_iso3Col specs header 0]

/-- Does a field name end in the year-annotation tag `_year`? -/
def endsYear (F : String) : Bool :=
  "_year".data.isSuffixOf F.data

theorem endsYear_append (F : String) : endsYear (F ++ "_year") = true := by
  unfold endsYear
  rw [String.data_append]
  simp [List.isSuffixOf]

theorem append_year_ne (f F : String) (hf : endsYear f = false) :
    F ++ "_year" ≠ f := by
  intro hc
  rw [← hc, endsYear_append] at hf
  exact Bool.noConfusion hf

theorem append_year_inj (F G : String) (h : F ++ "_year" = G ++ "_year") :
    F = G := by
  have hd : F.data ++ "_year".data = G.data ++ "_year".data := by
    rw [← String.data_append, ← String.data_append, h]
  have hc := List.append_cancel_right hd
  ext1
  exact hc

/-- A slot map is year-paired when a base field is present exactly when its
`_year` companion is. -/
def pairedSlots (sl : Slots) : Prop :=
  ∀ (e F : String), endsYear F = false →
    ((sl e F).isSome ↔ (sl e (F ++ "_year")).isSome)

theorem pairedSlots_empty : pairedSlots emptySlots :=
  fun _ _ _ => Iff.rfl

theorem pairWrite_paired (sl : Slots) (iso3 f : String) (v : ℚ) (y : String)
    (hf : endsYear f = false) (hp : pairedSlots sl) :
    pairedSlots (pairWrite sl iso3 f v y) := by
  intro e F hF
  have hFne : F ≠ f ++ "_year" := by
    intro hcc
    rw [hcc, endsYear_append] at hF
    exact Bool.noConfusion hF
  by_cases hc : e = iso3 ∧ F = f
  · obtain ⟨he, hFf⟩ := hc
    have l1 : pairWrite sl iso3 f v y e F = some (JVal.num v) := by
      unfold pairWrite
      rw [setSlot_other _ _ _ _ _ _ (by rintro ⟨_, h2⟩; exact hFne h2)]
      rw [he, hFf]
      exact setSlot_same _ _ _ _
    have l2 : pairWrite sl iso3 f v y e (F ++ "_year") = some (JVal.str y) := by
      unfold pairWrite
      rw [hFf, he]
      exact setSlot_same _ _ _ _
    rw [l1, l2]
    simp
  · have l1 : pairWrite sl iso3 f v y e F = sl e F := by
      unfold pairWrite
      rw [setSlot_other _ _ _ _ _ _ (by rintro ⟨_, h2⟩; exact hFne h2)]
      rw [setSlot_other _ _ _ _ _ _ hc]
    have l2 : pairWrite sl iso3 f v y e (F ++ "_year") = sl e (F ++ "_year") := by
      unfold pairWrite
      rw [setSlot_other _ _ _ _ _ _
        (by rintro ⟨he2, hq⟩; exact hc ⟨he2, append_year_inj F f hq⟩)]
      rw [setSlot_other _ _ _ _ _ _
        (by rintro ⟨_, hq⟩; exact append_year_ne f F hf hq)]
    rw [l1, l2]
    exact hp e F hF

theorem writeFields_paired (iso3 year : String) (row : List Cell)
    (fcs : List (String × Nat)) :
    ∀ sl : Slots, (∀ p ∈ fcs, endsYear p.1 = false) → pairedSlots sl →
      pairedSlots (writeFields iso3 year row sl fcs) := by
  induction fcs with
  | nil => intro sl _ hp; exact hp
  | cons fc rest ih =>
    intro sl hall hp
    rw [show writeFields iso3 year row sl (fc :: rest) =
        writeFields iso3 year row
          (if fc.2 < row.length then
            match row.getD fc.2 none with
            | none => sl
            | some cs =>
              match pyFloat? cs with
              | none => sl
              | some q => pairWrite sl iso3 fc.1 q year
          else sl) rest from rfl]
    apply ih
    · intro p hm
      exact hall p (List.mem_cons_of_mem _ hm)
    · by_cases hlen : fc.2 < row.length
      · rw [if_pos hlen]
        cases hg : row.getD fc.2 none with
        | none => exact hp
        | some cs =>
          show pairedSlots
            (match pyFloat? cs with
            | none => sl
            | some q => pairWrite sl iso3 fc.1 q year)
          cases hpf : pyFloat? cs with
          | none => exact hp
          | some q =>
            exact pairWrite_paired sl iso3 fc.1 q year
              (hall fc (List.mem_cons_self _ _)) hp
      · rw [if_neg hlen]
        exact hp

theorem rowStep_paired (yc : Option Nat) (ic : Nat)
    (fcs : List (String × Nat)) (hall : ∀ p ∈ fcs, endsYear p.1 = false)
    (st : RFState) (row : List Cell) (hp : pairedSlots st.slots) :
    pairedSlots (rowStep yc ic fcs st row).slots := by
  unfold rowStep
  cases hio : rowIso3 ic row with
  | none => exact hp
  | some iso3 =>
    show pairedSlots
      (if 2025 < (rowYearInfo yc row).1 then st
       else
         match st.best iso3 with
         | some b =>
           if (rowYearInfo yc row).1 < b then st
           else procRow st iso3 (rowYearInfo yc row) row fcs
         | none => procRow st iso3 (rowYearInfo yc row) row fcs).slots
    by_cases hcut : 2025 < (rowYearInfo yc row).1
    · rw [if_pos hcut]
      exact hp
    · rw [if_neg hcut]
      cases hb : st.best iso3 with
      | none => exact writeFields_paired _ _ _ _ _ hall hp
      | some b =>
        show pairedSlots
          (if (rowYearInfo yc row).1 < b then st
           else procRow st iso3 (rowYearInfo yc row) row fcs).slots
        by_cases hlt : (rowYearInfo yc row).1 < b
        · rw [if_pos hlt]
          exact hp
        · rw [if_neg hlt]
          exact writeFields_paired _ _ _ _ _ hall hp

theorem runRows_paired (yc : Option Nat) (ic : Nat)
    (fcs : List (String × Nat)) (hall : ∀ p ∈ fcs, endsYear p.1 = false)
    (rows : List (List Cell)) :
    pairedSlots (runRows yc ic fcs rows).slots := by
  have haux : ∀ (rs : List (List Cell)) (st : RFState), pairedSlots st.slots →
      pairedSlots (rs.foldl (rowStep yc ic fcs) st).slots := by
    intro rs
    induction rs with
    | nil => intro st hp; exact hp
    | cons r rest ih =>
      intro st hp
      exact ih (rowStep yc ic fcs st r) (rowStep_paired yc ic fcs hall st r hp)
  exact haux rows rfEmpty pairedSlots_empty

theorem sipriRow_paired (db : RefDB) (fname : String) (m : ℚ)
    (hf : endsYear fname = false) (acc : SipriAcc)
    (r : String × List (Nat × String)) (hp : pairedSlots acc.result) :
    pairedSlots (sipriRow db fname m acc r).result := by
  unfold sipriRow
  by_cases h1 : pyStrip r.1 = "" ∨ sipriJunkNames.contains (lowerStr (pyStrip r.1))
  · rw [if_pos h1]
    exact hp
  · rw [if_neg h1]
    by_cases h2 : pyIsUpper (pyStrip r.1) ∧ 3 < (pyStrip r.1).length
    · rw [if_pos h2]
      exact hp
    · rw [if_neg h2]
      cases hres : country_to_iso3 db (pyStrip r.1) with
      | none => exact hp
      | some iso3 =>
        show pairedSlots
          (match select_latest m r.2 with
          | none => acc
          | some vy =>
            { acc with result := pairWrite acc.result iso3 fname vy.1 vy.2 }).result
        cases hsel : select_latest m r.2 with
        | none => exact hp
        | some vy => exact pairWrite_paired _ _ _ _ _ hf hp

theorem sipriRun_paired (db : RefDB) (fname : String) (m : ℚ)
    (hf : endsYear fname = false)
    (rows : List (String × List (Nat × String))) :
    pairedSlots (sipriRun db fname m rows).result := by
  have haux : ∀ (rs : List (String × List (Nat × String))) (acc : SipriAcc),
      pairedSlots acc.result →
      pairedSlots (rs.foldl (sipriRow db fname m) acc).result := by
    intro rs
    induction rs with
    | nil => intro acc hp; exact hp
    | cons r rest ih =>
      intro acc hp
      exact ih (sipriRow db fname m acc r) (sipriRow_paired db fname m hf acc r hp)
  exact haux rows sipriAccEmpty pairedSlots_empty

/-- C3 counterexample: the specification's Temporal Selector for year-columns
sources requires the chosen year to be at most `cutoff_year`, returning none
when no year qualifies; on the observation list `[(2030, "5")]` with cutoff
2025 that reading returns none, but the selector implemented in
`fetch_sipri.parse_sheet` applies no cutoff at all and returns `(5, "2030")`. -/
theorem select_latest_cutoff_counterexample :
    select_latest 1 [(2030, "5")] = some (5, "2030") ∧
    selectLatestClaim [(2030, "5")] 2025 = none := by
  decide

/-- C3 (amended): the years-as-columns Temporal Selector sorts candidate
years descending by numeric value and returns the value and year of the first
year whose normalized value is a valid number — with no cutoff filtering —
and none when no year qualifies; on `{2019: 5, 2021: "...", 2020: 7}` it
returns `(7, "2020")`, skipping the placeholder and never using 2019. -/
theorem select_latest_no_cutoff :
    (∀ obs : List (Nat × String), select_latest 1 obs = selectSpecNoCutoff obs) ∧
    select_latest 1 [(2019, "5"), (2021, "..."), (2020, "7")] = some (7, "2020") := by
  constructor
  · intro obs
    unfold select_latest selectSpecNoCutoff
    exact selLoop_one_eq_findSome? (sortYearsDesc obs)
  · decide

/-- C4 counterexample: two rows for `FRA` carry the same year 2020 (both
qualify, as `rowQualYear` shows) with values 1 and 2; the claim says the
first row in source order is preferred, but the UN reader keeps the second
row's value 2 — processing a single tied row alone would keep 1. -/
theorem un_tie_last_row_counterexample :
    (runRows (some 2) 0 [("f", 1)]
      [[some "FRA", some "1", some "2020"],
       [some "FRA", some "2", some "2020"]]).slots "FRA" "f" =
      some (JVal.num 2) ∧
    (runRows (some 2) 0 [("f", 1)]
      [[some "FRA", some "1", some "2020"]]).slots "FRA" "f" =
      some (JVal.num 1) ∧
    rowQualYear (some 2) 0 "FRA" [some "FRA", some "1", some "2020"] = some 2020 ∧
    rowQualYear (some 2) 0 "FRA" [some "FRA", some "2", some "2020"] = some 2020 := by
  decide

/-- C4 (amended): for every entity the UN reader's recorded best year is the
maximum parsed year over the qualifying rows (valid entity cell, year at most
2025); a later row whose year ties the current best is processed again and
overwrites the fields it can parse, so ties prefer the LAST row in the UN
reader, while the OWID extractor's strict greater-than comparison keeps the
first row on ties. -/
theorem latest_row_selection_amended :
    (∀ (yc : Option Nat) (ic : Nat) (fcs : List (String × Nat))
       (rows : List (List Cell)) (e : String),
       (runRows yc ic fcs rows).best e =
         listMaxO (rows.filterMap (rowQualYear yc ic e))) ∧
    (runRows (some 2) 0 [("f", 1)]
      [[some "FRA", some "1", some "2020"],
       [some "FRA", some "2", some "2020"]]).slots "FRA" "f" =
      some (JVal.num 2) ∧
    extract_latest [("FRA", "1", "2020"), ("FRA", "2", "2020")] "FRA" =
      some (1, "2020") := by
  refine ⟨?_, by decide, by decide⟩
  intro yc ic fcs rows e
  unfold runRows listMaxO
  exact runRows_best_aux yc ic fcs e rows rfEmpty

/-- C5 counterexample: in the row `["a", "b", "2020", "c", "d"]` only one of
five cells is a 4-digit token, so the specification's majority rule (and its
sentinel-substring rule, with sentinel `Country`) rejects the row and reports
not-found; the SIPRI header scan accepts it, because a single 4-digit cell
suffices there. -/
theorem header_scan_counterexample :
    sipriFindHeader [["a", "b", "2020", "c", "d"]] = some 0 ∧
    locateHeaderClaim "Country" [["a", "b", "2020", "c", "d"]] = none := by
  decide

/-- C5 (amended): the UN header scan inspects at most the first 25 rows and
qualifies a row exactly when the ISO3 sentinel occurs in the joined truthy
cells; the SIPRI header scan is unbounded (row 30 can qualify) and qualifies
a row when some stripped cell equals `Country` or some cell is a single
4-digit numeric token; when no row qualifies, the source contributes
nothing. -/
theorem header_scan_amended :
    (∀ rows : List (List Cell),
      find_header_row rows = find_header_row (rows.take 25)) ∧
    (∀ rows : List (List Cell),
      find_header_row rows = (rows.take 25).findIdx? unHeaderCond) ∧
    (∀ rows : List (List String),
      sipriFindHeader rows = rows.findIdx? sipriRowQualifies) ∧
    sipriFindHeader (List.replicate 30 [""] ++ [["Country"]]) = some 30 ∧
    (∀ (rows : List (List Cell)) (cmap : List (String × String)),
      find_header_row rows = none → read_file rows cmap = rfEmpty) := by
  refine ⟨?_, ?_, ?_, by decide, ?_⟩
  · intro rows
    unfold find_header_row
    simp [List.take_take]
  · intro rows
    unfold find_header_row
    exact enumFindIdx_eq_findIdx? unHeaderCond (rows.take 25) 0
  · intro rows
    unfold sipriFindHeader
    exact enumFindIdx_eq_findIdx? sipriRowQualifies rows 0
  · intro rows cmap h
    unfold read_file
    rw [h]

/-- Witness for C5 (amended): a sheet whose single row lacks the sentinel has
no header row, and the UN reader extracts nothing from it. -/
theorem header_scan_amended_witness :
    read_file [[some "x"]] [] = rfEmpty :=
  header_scan_amended.2.2.2.2 [[some "x"]] [] (by decide)

/-- C6: header cells are visited left to right and each destination field
name is claimed by the first column whose stripped cell contains one of its
keywords case-insensitively (later duplicate columns are ignored, and one
column may serve several still-unclaimed destinations, each characterized
independently); the entity-code marker `_ISO3_` is claimed the same way; on
the header `["Country", "ISO3", "2020", "2021", "Dependency Ratio"]` with the
population column specs, column 1 is claimed for the entity-code role and
column 4 for `dependencyRatio`. -/
theorem column_mapping_first_match :
    (∀ (header : List Cell) (specs : List (String × String)) (fn : String),
       fn ≠ "_ISO3_" → fn ≠ "_YEAR_" →
       lookupA (map_columns header specs).fieldCols fn =
         enumFindIdx (cellMatchesField specs fn) 0 header) ∧
    (∀ (header : List Cell) (specs : List (String × String)),
       (map_columns header specs).iso3Col =
         enumFindIdx (cellMatchesField specs "_ISO3_") 0 header) ∧
    map_columns
      [some "Country", some "ISO3", some "2020", some "2021",
       some "Dependency Ratio"]
      [("ISO3", "_ISO3_"), ("Year", "_YEAR_"), ("0-14", "popAge0to14"),
       ("15-64", "popAge15to64"), ("65", "popAge65plus"),
       ("Dependency", "dependencyRatio")] =
      { iso3Col := some 1, yearCol := none,
        fieldCols := [("dependencyRatio", 4)] } := by
  exact ⟨fun header specs fn h1 h2 => map_columns_fieldCols fn h1 h2 header specs,
    fun header specs => map_columns_iso3Col header specs, by decide⟩

/-- Witness for C6: on a header with two `Dep` columns, the destination field
is assigned to the first matching column, index 0. -/
theorem column_mapping_first_match_witness :
    lookupA
      (map_columns [some "Dep", some "Dep"] [("Dep", "depField")]).fieldCols
      "depField" =
      enumFindIdx (cellMatchesField [("Dep", "depField")] "depField") 0
        [some "Dep", some "Dep"] :=
  column_mapping_first_match.1 [some "Dep", some "Dep"] [("Dep", "depField")]
    "depField" (by decide) (by decide)

/-- C7: the Entity Resolver accepts 3-character identifiers directly
(uppercased, touching no table); otherwise the manual override table is
consulted first by exact match (so `Czechia` yields `CZE` whatever the
reference database holds), then the reference database exactly and then
fuzzily, and a name that misses everywhere resolves to none and is recorded
in the diagnostic skipped list without aborting the row loop. -/
theorem entity_resolver_chain :
    (∀ s : String, s ≠ "" → (pyStrip s).length = 3 →
      unAcceptIso3 (some s) = some (upperStr (pyStrip s))) ∧
    unAcceptIso3 (some "USA") = some "USA" ∧
    (∀ db : RefDB, country_to_iso3 db "Czechia" = some "CZE") ∧
    (∀ db : RefDB, db.exact "Nonexistent Country" = none →
      db.fuzzy "Nonexistent Country" = none →
      country_to_iso3 db "Nonexistent Country" = none) ∧
    (∀ (db : RefDB) (fname : String) (m : ℚ) (acc : SipriAcc) (name : String)
       (obs : List (Nat × String)),
       pyStrip name ≠ "" →
       sipriJunkNames.contains (lowerStr (pyStrip name)) = false →
       ¬(pyIsUpper (pyStrip name) ∧ 3 < (pyStrip name).length) →
       country_to_iso3 db (pyStrip name) = none →
       sipriRow db fname m acc (name, obs) =
         { acc with skipped := acc.skipped ++ [pyStrip name] }) := by
  refine ⟨?_, by decide, ?_, ?_, ?_⟩
  · intro s h1 h2
    simp [unAcceptIso3, h1, h2]
  · intro db
    simp only [country_to_iso3]
    rw [show lookupA NAME_TO_ISO3 (pyStrip "Czechia") = some "CZE" from by decide]
  · intro db h1 h2
    simp only [country_to_iso3]
    rw [show lookupA NAME_TO_ISO3 (pyStrip "Nonexistent Country") = none from by decide]
    rw [show pyStrip "Nonexistent Country" = "Nonexistent Country" from by decide]
    rw [h1, h2]
  · intro db fname m acc name obs h1 h2 h3 h4
    have hcond : ¬(pyStrip name = "" ∨
        sipriJunkNames.contains (lowerStr (pyStrip name)) = true) := by
      rintro (hc | hc)
      · exact h1 hc
      · rw [h2] at hc
        exact Bool.noConfusion hc
    unfold sipriRow
    rw [if_neg hcond, if_neg h3, h4]

/-- Witness for C7: against an empty reference database the name
`Nonexistent Country` resolves to none. -/
theorem entity_resolver_chain_witness :
    country_to_iso3 ⟨fun _ => none, fun _ => none⟩ "Nonexistent Country" = none :=
  entity_resolver_chain.2.2.2.1 ⟨fun _ => none, fun _ => none⟩ rfl rfl

/-- C8: the Value Normalizer yields no value on a missing cell and on every
placeholder token, and otherwise attempts the numeric parse on the stripped
text with thousands separators removed (every failure path returning none
rather than escaping); `"1,234.5"` normalizes to `mkRat 12345 10`, which is
the rational 1234.5, while `"xxx"` and the unparsable `"abc"` yield none. -/
theorem value_normalizer_spec :
    normalizeCell none = none ∧
    (∀ s : String, sipriPlaceholders.contains (pyStrip s) = true →
      normalizeRaw s = none) ∧
    (∀ s : String, sipriPlaceholders.contains (pyStrip s) = false →
      normalizeRaw s = pyFloat? (stripCommas (pyStrip s))) ∧
    normalizeRaw "1,234.5" = some (mkRat 12345 10) ∧
    (mkRat 12345 10 : ℚ) = 1234.5 ∧
    normalizeRaw "xxx" = none ∧
    normalizeRaw "abc" = none := by
  refine ⟨by decide, ?_, ?_, by decide, by norm_num [Rat.mkRat_eq_div],
    by decide, by decide⟩
  · intro s h
    simp only [normalizeRaw]
    rw [if_pos h]
  · intro s h
    simp only [normalizeRaw]
    rw [if_neg (by simpa using h)]

/-- Witness for C8: the placeholder `...` normalizes to no value. -/
theorem value_normalizer_spec_witness :
    normalizeRaw "..." = none :=
  value_normalizer_spec.2.1 "..." (by decide)

/-- C9 counterexample: writing the serialized store `NEW-STORE` over the old
contents `OLD-STORE` and failing after 3 characters leaves `NEW` on disk — a
partial store that is neither the old contents, nor the new contents, nor
empty — so the claim that a persistence failure leaves no partial or corrupt
store is false of the truncate-and-write-in-place persistence step. -/
theorem store_write_not_atomic_counterexample :
    storeWriteResult "NEW-STORE".data 3 ≠ "OLD-STORE".data ∧
    storeWriteResult "NEW-STORE".data 3 ≠ "NEW-STORE".data ∧
    storeWriteResult "NEW-STORE".data 3 ≠ [] := by
  decide

/-- C9 (amended): the store is persisted by truncating the store file and
writing the serialized contents in place; a completed write leaves exactly
the serialized store, and an interrupted write leaves a prefix of it — which
can differ from both the old and the new contents, so the write is not
atomic. -/
theorem store_write_amended :
    (∀ (s : List Char) (k : Nat), s.length ≤ k → storeWriteResult s k = s) ∧
    (∀ (s : List Char) (k : Nat), storeWriteResult s k ++ s.drop k = s) ∧
    storeWriteResult "NEW-STORE".data 3 ≠ "OLD-STORE".data ∧
    storeWriteResult "NEW-STORE".data 3 ≠ "NEW-STORE".data := by
  refine ⟨?_, ?_, by decide, by decide⟩
  · intro s k h
    exact List.take_of_length_le h
  · intro s k
    exact List.take_append_drop k s

/-- Witness for C9 (amended): a write that reaches the full 9 characters of
`NEW-STORE` leaves exactly the serialized store behind. -/
theorem store_write_amended_witness :
    storeWriteResult "NEW-STORE".data 9 = "NEW-STORE".data :=
  store_write_amended.1 "NEW-STORE".data 9 (by decide)

/-- C10: in every source map extracted by the UN reader's row loop and by the
SIPRI sheet parser, a base field (one not itself ending in `_year`, as all
configured field names are) is present for an entity exactly when its
`_year` companion is present — the two are written in the same step and
never separately. -/
theorem value_year_paired :
    (∀ (yc : Option Nat) (ic : Nat) (fcs : List (String × Nat))
       (rows : List (List Cell)),
       (∀ p ∈ fcs, endsYear p.1 = false) →
       ∀ (e F : String), endsYear F = false →
         (((runRows yc ic fcs rows).slots e F).isSome ↔
           ((runRows yc ic fcs rows).slots e (F ++ "_year")).isSome)) ∧
    (∀ (db : RefDB) (fname : String) (m : ℚ)
       (rows : List (String × List (Nat × String))),
       endsYear fname = false →
       ∀ (e F : String), endsYear F = false →
         (((sipriRun db fname m rows).result e F).isSome ↔
           ((sipriRun db fname m rows).result e (F ++ "_year")).isSome)) := by
  exact ⟨fun yc ic fcs rows hall e F hF => runRows_paired yc ic fcs hall rows e F hF,
    fun db fname m rows hf e F hF => sipriRun_paired db fname m hf rows e F hF⟩

/-- Witness for C10: after extracting one qualifying row, the field `f` and
its companion `f_year` are present together. -/
theorem value_year_paired_witness :
    ((runRows (some 2) 0 [("f", 1)]
        [[some "FRA", some "1", some "2020"]]).slots "FRA" "f").isSome ↔
      ((runRows (some 2) 0 [("f", 1)]
        [[some "FRA", some "1", some "2020"]]).slots "FRA"
          ("f" ++ "_year")).isSome :=
  value_year_paired.1 (some 2) 0 [("f", 1)]
    [[some "FRA", some "1", some "2020"]] (by decide) "FRA" "f" (by decide)
